import Mathlib

/-!
Verification development for the process-exporter repository.

Part 1 models the kernel-resident kretprobe logic of `src/ebpf/src/main.rs`:
the two BPF hash maps (`NETWORK_STATS`, `PID_WHITELIST`) and the two probe
bodies `try_tcp_sendmsg` / `try_tcp_recvmsg`.  The maps are modelled as
partial functions from u32 keys; u64 counter values are natural numbers kept
below `2^64` by the saturating addition the source uses.
-/

namespace ProcExporter

/-- Largest u64 value; `u64::saturating_add` clamps at this bound. -/
def U64_MAX : Nat := 2 ^ 64 - 1

/-- Model of Rust `u64::saturating_add`. -/
def satAdd64 (a b : Nat) : Nat := min (a + b) U64_MAX

/-- `NetworkStats` from `src/ebpf/src/main.rs` (four u64 counters). -/
structure NetworkStats where
  tx_bytes : Nat
  rx_bytes : Nat
  tx_packets : Nat
  rx_packets : Nat
deriving DecidableEq, Repr

/-- The all-zero counter record the probes default-initialize with. -/
def NetworkStats.zero : NetworkStats := ⟨0, 0, 0, 0⟩

/-- Kernel-side shared state: the `NETWORK_STATS` and `PID_WHITELIST` maps. -/
structure ProbeState where
  network_stats : Nat → Option NetworkStats
  pid_whitelist : Nat → Option Nat

/-- `(pid_tgid >> 32) as u32`: the process-group id (tgid). -/
def tgidOf (pid_tgid : Nat) : Nat := (pid_tgid / 2 ^ 32) % 2 ^ 32

/-- `PID_WHITELIST.get(&tgid).copied().unwrap_or(0)`. -/
def whitelistValue (st : ProbeState) (tgid : Nat) : Nat :=
  (st.pid_whitelist tgid).getD 0

/-- `NETWORK_STATS.insert(&tgid, &new_stats, 0)` modelled as map update. -/
def mapInsert (m : Nat → Option NetworkStats) (k : Nat) (v : NetworkStats) :
    Nat → Option NetworkStats :=
  fun k2 => if k2 = k then some v else m k2

/-- The counters the probes observe for an id: the map entry, defaulting to
zero exactly as `unwrap_or(NetworkStats { .. 0 })` does in the source. -/
def countersAt (st : ProbeState) (id : Nat) : NetworkStats :=
  (st.network_stats id).getD NetworkStats.zero

/-- `try_tcp_sendmsg` from `src/ebpf/src/main.rs`.  `ret` is the probed
function's return value (`ctx.ret()`, an optional i64); `none` makes the
source return `Err(0)` without touching either map.  The source checks the
range first, then the whitelist, then reads (default-zero), updates and
writes back the counter entry for the group id. -/
def try_tcp_sendmsg (st : ProbeState) (pid_tgid : Nat) (ret : Option Int) :
    ProbeState :=
  match ret with
  | none => st
  | some r =>
    if r ≤ 0 ∨ r > 1048576 then st
    else if whitelistValue st (tgidOf pid_tgid) = 0 then st
    else
      let new_stats : NetworkStats :=
        { tx_bytes := satAdd64 (countersAt st (tgidOf pid_tgid)).tx_bytes r.toNat
          tx_packets := satAdd64 (countersAt st (tgidOf pid_tgid)).tx_packets 1
          rx_bytes := (countersAt st (tgidOf pid_tgid)).rx_bytes
          rx_packets := (countersAt st (tgidOf pid_tgid)).rx_packets }
      { st with network_stats := mapInsert st.network_stats (tgidOf pid_tgid) new_stats }

/-- `try_tcp_recvmsg` from `src/ebpf/src/main.rs` (the extra branch in the
source on out-of-range values only emits a debug log before the same early
return). -/
def try_tcp_recvmsg (st : ProbeState) (pid_tgid : Nat) (ret : Option Int) :
    ProbeState :=
  match ret with
  | none => st
  | some r =>
    if r ≤ 0 ∨ r > 1048576 then st
    else if whitelistValue st (tgidOf pid_tgid) = 0 then st
    else
      let new_stats : NetworkStats :=
        { tx_bytes := (countersAt st (tgidOf pid_tgid)).tx_bytes
          tx_packets := (countersAt st (tgidOf pid_tgid)).tx_packets
          rx_bytes := satAdd64 (countersAt st (tgidOf pid_tgid)).rx_bytes r.toNat
          rx_packets := satAdd64 (countersAt st (tgidOf pid_tgid)).rx_packets 1 }
      { st with network_stats := mapInsert st.network_stats (tgidOf pid_tgid) new_stats }

/-- One probe firing: either the send-path or the receive-path kretprobe. -/
inductive NetEvent where
  | send (pid_tgid : Nat) (ret : Option Int)
  | recv (pid_tgid : Nat) (ret : Option Int)

/-- Dispatch one event to the corresponding probe body. -/
def applyEvent (st : ProbeState) : NetEvent → ProbeState
  | .send p r => try_tcp_sendmsg st p r
  | .recv p r => try_tcp_recvmsg st p r

/-- A trace of probe firings, applied in order. -/
def applyEvents (st : ProbeState) (es : List NetEvent) : ProbeState :=
  es.foldl applyEvent st

/-- Field-wise order on counter records. -/
def NetworkStats.le (a b : NetworkStats) : Prop :=
  a.tx_bytes ≤ b.tx_bytes ∧ a.rx_bytes ≤ b.rx_bytes ∧
  a.tx_packets ≤ b.tx_packets ∧ a.rx_packets ≤ b.rx_packets

/-- Stored counters are genuine u64 values (≤ `U64_MAX`); holds of any state
the kernel can actually reach since only `satAdd64` results are stored. -/
def ProbeState.WF (st : ProbeState) : Prop :=
  ∀ id s, st.network_stats id = some s →
    s.tx_bytes ≤ U64_MAX ∧ s.rx_bytes ≤ U64_MAX ∧
    s.tx_packets ≤ U64_MAX ∧ s.rx_packets ≤ U64_MAX

theorem NetworkStats.le_refl (a : NetworkStats) : NetworkStats.le a a :=
  ⟨Nat.le_refl _, Nat.le_refl _, Nat.le_refl _, Nat.le_refl _⟩

theorem NetworkStats.le_trans {a b c : NetworkStats}
    (h1 : NetworkStats.le a b) (h2 : NetworkStats.le b c) :
    NetworkStats.le a c :=
  ⟨Nat.le_trans h1.1 h2.1, Nat.le_trans h1.2.1 h2.2.1,
   Nat.le_trans h1.2.2.1 h2.2.2.1, Nat.le_trans h1.2.2.2 h2.2.2.2⟩

theorem le_satAdd64 {a : Nat} (b : Nat) (h : a ≤ U64_MAX) : a ≤ satAdd64 a b :=
  le_min (Nat.le_add_right a b) h

theorem satAdd64_le_max (a b : Nat) : satAdd64 a b ≤ U64_MAX :=
  min_le_right _ _

/-- Counters read for an id are u64-bounded in a well-formed state. -/
theorem countersAt_wf {st : ProbeState} (h : st.WF) (id : Nat) :
    (countersAt st id).tx_bytes ≤ U64_MAX ∧
    (countersAt st id).rx_bytes ≤ U64_MAX ∧
    (countersAt st id).tx_packets ≤ U64_MAX ∧
    (countersAt st id).rx_packets ≤ U64_MAX := by
  unfold countersAt
  cases hs : st.network_stats id with
  | none => simp [NetworkStats.zero, U64_MAX]
  | some s => simpa using h id s hs

/-- One send-probe firing only grows the observed counters and preserves
well-formedness. -/
theorem try_tcp_sendmsg_mono (st : ProbeState) (p : Nat) (r : Option Int)
    (h : st.WF) :
    (∀ id, NetworkStats.le (countersAt st id)
      (countersAt (try_tcp_sendmsg st p r) id)) ∧
    (try_tcp_sendmsg st p r).WF := by
  cases r with
  | none => exact ⟨fun id => NetworkStats.le_refl _, h⟩
  | some v =>
    by_cases hr : v ≤ 0 ∨ v > 1048576
    · simp only [try_tcp_sendmsg, if_pos hr]
      exact ⟨fun id => NetworkStats.le_refl _, h⟩
    · by_cases hw : whitelistValue st (tgidOf p) = 0
      · simp only [try_tcp_sendmsg, if_neg hr, if_pos hw]
        exact ⟨fun id => NetworkStats.le_refl _, h⟩
      · have hb := countersAt_wf h (tgidOf p)
        constructor
        · intro id
          by_cases hid : id = tgidOf p
          · subst hid
            simp only [try_tcp_sendmsg, if_neg hr, if_neg hw, countersAt,
              mapInsert, if_pos rfl, Option.getD_some]
            exact ⟨le_satAdd64 _ hb.1, Nat.le_refl _,
              le_satAdd64 _ hb.2.2.1, Nat.le_refl _⟩
          · simp only [try_tcp_sendmsg, if_neg hr, if_neg hw, countersAt,
              mapInsert, if_neg hid]
            exact NetworkStats.le_refl _
        · intro id s hs
          simp only [try_tcp_sendmsg, if_neg hr, if_neg hw, mapInsert] at hs
          by_cases hid : id = tgidOf p
          · rw [if_pos hid] at hs
            cases hs
            exact ⟨satAdd64_le_max _ _, hb.2.1, satAdd64_le_max _ _, hb.2.2.2⟩
          · rw [if_neg hid] at hs
            exact h id s hs

/-- One receive-probe firing only grows the observed counters and preserves
well-formedness. -/
theorem try_tcp_recvmsg_mono (st : ProbeState) (p : Nat) (r : Option Int)
    (h : st.WF) :
    (∀ id, NetworkStats.le (countersAt st id)
      (countersAt (try_tcp_recvmsg st p r) id)) ∧
    (try_tcp_recvmsg st p r).WF := by
  cases r with
  | none => exact ⟨fun id => NetworkStats.le_refl _, h⟩
  | some v =>
    by_cases hr : v ≤ 0 ∨ v > 1048576
    · simp only [try_tcp_recvmsg, if_pos hr]
      exact ⟨fun id => NetworkStats.le_refl _, h⟩
    · by_cases hw : whitelistValue st (tgidOf p) = 0
      · simp only [try_tcp_recvmsg, if_neg hr, if_pos hw]
        exact ⟨fun id => NetworkStats.le_refl _, h⟩
      · have hb := countersAt_wf h (tgidOf p)
        constructor
        · intro id
          by_cases hid : id = tgidOf p
          · subst hid
            simp only [try_tcp_recvmsg, if_neg hr, if_neg hw, countersAt,
              mapInsert, if_pos rfl, Option.getD_some]
            exact ⟨Nat.le_refl _, le_satAdd64 _ hb.2.1,
              Nat.le_refl _, le_satAdd64 _ hb.2.2.2⟩
          · simp only [try_tcp_recvmsg, if_neg hr, if_neg hw, countersAt,
              mapInsert, if_neg hid]
            exact NetworkStats.le_refl _
        · intro id s hs
          simp only [try_tcp_recvmsg, if_neg hr, if_neg hw, mapInsert] at hs
          by_cases hid : id = tgidOf p
          · rw [if_pos hid] at hs
            cases hs
            exact ⟨hb.1, satAdd64_le_max _ _, hb.2.2.1, satAdd64_le_max _ _⟩
          · rw [if_neg hid] at hs
            exact h id s hs

/-- Any single event only grows counters and preserves well-formedness. -/
theorem applyEvent_mono (st : ProbeState) (e : NetEvent) (h : st.WF) :
    (∀ id, NetworkStats.le (countersAt st id)
      (countersAt (applyEvent st e) id)) ∧
    (applyEvent st e).WF := by
  cases e with
  | send p r => exact try_tcp_sendmsg_mono st p r h
  | recv p r => exact try_tcp_recvmsg_mono st p r h

/-- Counter growth over a whole trace of events. -/
theorem applyEvents_mono (es : List NetEvent) :
    ∀ st : ProbeState, st.WF → ∀ id,
      NetworkStats.le (countersAt st id) (countersAt (applyEvents st es) id) := by
  induction es with
  | nil => intro st _ id; exact NetworkStats.le_refl _
  | cons e es ih =>
    intro st h id
    have step := applyEvent_mono st e h
    exact NetworkStats.le_trans (step.1 id) (ih _ step.2 id)

/-- Probe state with empty counters and pid 9 whitelisted with value 1. -/
def wlProbeState : ProbeState :=
  ⟨fun _ => none, fun k => if k = 9 then some 1 else none⟩

/-- A state with no counter entries is well-formed. -/
theorem wlProbeState_wf : wlProbeState.WF :=
  fun _ _ hs => Option.noConfusion hs

/-- C1: when a group id is absent from the whitelist or present with value
zero, neither `try_tcp_sendmsg` nor `try_tcp_recvmsg` creates or updates any
`NETWORK_STATS` entry — the counters map is left exactly as it was. -/
theorem c1_whitelist_gate (st : ProbeState) (pid_tgid : Nat) (ret : Option Int)
    (h : whitelistValue st (tgidOf pid_tgid) = 0) :
    (try_tcp_sendmsg st pid_tgid ret).network_stats = st.network_stats ∧
    (try_tcp_recvmsg st pid_tgid ret).network_stats = st.network_stats := by
  constructor <;>
  · cases ret with
    | none => rfl
    | some r =>
      by_cases hr : r ≤ 0 ∨ r > 1048576
      · simp only [try_tcp_sendmsg, try_tcp_recvmsg, if_pos hr]
      · simp only [try_tcp_sendmsg, try_tcp_recvmsg, if_neg hr, if_pos h]

/-- Witness for C1 at a concrete non-whitelisted id with a valid byte count. -/
theorem c1_whitelist_gate_witness :
    whitelistValue ⟨fun _ => none, fun _ => none⟩ (tgidOf (7 * 2 ^ 32 + 3)) = 0 ∧
    ((try_tcp_sendmsg ⟨fun _ => none, fun _ => none⟩ (7 * 2 ^ 32 + 3)
        (some 100)).network_stats =
      (⟨fun _ => none, fun _ => none⟩ : ProbeState).network_stats ∧
     (try_tcp_recvmsg ⟨fun _ => none, fun _ => none⟩ (7 * 2 ^ 32 + 3)
        (some 100)).network_stats =
      (⟨fun _ => none, fun _ => none⟩ : ProbeState).network_stats) :=
  ⟨rfl, c1_whitelist_gate ⟨fun _ => none, fun _ => none⟩ (7 * 2 ^ 32 + 3)
    (some 100) rfl⟩

/-- C2: a missing, non-positive, or over-1-MiB return value makes both probes
return with the whole probe state untouched. -/
theorem c2_invalid_ret_noop (st : ProbeState) (pid_tgid : Nat) (ret : Option Int)
    (h : ret = none ∨ ∃ r, ret = some r ∧ (r ≤ 0 ∨ r > 1048576)) :
    try_tcp_sendmsg st pid_tgid ret = st ∧ try_tcp_recvmsg st pid_tgid ret = st := by
  rcases h with h | ⟨r, hrv, hr⟩
  · subst h; exact ⟨rfl, rfl⟩
  · subst hrv
    exact ⟨by simp only [try_tcp_sendmsg, if_pos hr],
           by simp only [try_tcp_recvmsg, if_pos hr]⟩

/-- Witness for C2 at a concrete error return (-5) with id 9 whitelisted. -/
theorem c2_invalid_ret_noop_witness :
    ((some (-5) : Option Int) = none ∨
      ∃ r, (some (-5) : Option Int) = some r ∧ (r ≤ 0 ∨ r > 1048576)) ∧
    (try_tcp_sendmsg wlProbeState (9 * 2 ^ 32) (some (-5)) = wlProbeState ∧
     try_tcp_recvmsg wlProbeState (9 * 2 ^ 32) (some (-5)) = wlProbeState) :=
  ⟨Or.inr ⟨-5, rfl, Or.inl (by decide)⟩,
   c2_invalid_ret_noop wlProbeState (9 * 2 ^ 32) (some (-5))
     (Or.inr ⟨-5, rfl, Or.inl (by decide)⟩)⟩

/-- C3: over any trace of probe events, every counter field of a given id's
entry is monotonically non-decreasing (saturating u64 addition never wraps),
starting from any state whose stored counters are genuine u64 values. -/
theorem c3_counters_monotone (st : ProbeState) (h : st.WF)
    (es : List NetEvent) (id : Nat) :
    (countersAt st id).tx_bytes ≤ (countersAt (applyEvents st es) id).tx_bytes ∧
    (countersAt st id).rx_bytes ≤ (countersAt (applyEvents st es) id).rx_bytes ∧
    (countersAt st id).tx_packets ≤ (countersAt (applyEvents st es) id).tx_packets ∧
    (countersAt st id).rx_packets ≤ (countersAt (applyEvents st es) id).rx_packets :=
  applyEvents_mono es st h id

/-- Witness for C3: a concrete whitelisted trace of one send and one receive. -/
theorem c3_counters_monotone_witness :
    wlProbeState.WF ∧
    ((countersAt wlProbeState 9).tx_bytes ≤
      (countersAt (applyEvents wlProbeState
        [NetEvent.send (9 * 2 ^ 32) (some 100),
         NetEvent.recv (9 * 2 ^ 32) (some 50)]) 9).tx_bytes ∧
     (countersAt wlProbeState 9).rx_bytes ≤
      (countersAt (applyEvents wlProbeState
        [NetEvent.send (9 * 2 ^ 32) (some 100),
         NetEvent.recv (9 * 2 ^ 32) (some 50)]) 9).rx_bytes ∧
     (countersAt wlProbeState 9).tx_packets ≤
      (countersAt (applyEvents wlProbeState
        [NetEvent.send (9 * 2 ^ 32) (some 100),
         NetEvent.recv (9 * 2 ^ 32) (some 50)]) 9).tx_packets ∧
     (countersAt wlProbeState 9).rx_packets ≤
      (countersAt (applyEvents wlProbeState
        [NetEvent.send (9 * 2 ^ 32) (some 100),
         NetEvent.recv (9 * 2 ^ 32) (some 50)]) 9).rx_packets) :=
  ⟨wlProbeState_wf,
   c3_counters_monotone wlProbeState wlProbeState_wf
     [NetEvent.send (9 * 2 ^ 32) (some 100),
      NetEvent.recv (9 * 2 ^ 32) (some 50)] 9⟩

/-- C10: the send-path probe leaves every entry's rx fields exactly as read,
and the receive-path probe leaves every entry's tx fields exactly as read. -/
theorem c10_direction_frame (st : ProbeState) (pid_tgid : Nat)
    (ret : Option Int) (id : Nat) :
    (countersAt (try_tcp_sendmsg st pid_tgid ret) id).rx_bytes =
      (countersAt st id).rx_bytes ∧
    (countersAt (try_tcp_sendmsg st pid_tgid ret) id).rx_packets =
      (countersAt st id).rx_packets ∧
    (countersAt (try_tcp_recvmsg st pid_tgid ret) id).tx_bytes =
      (countersAt st id).tx_bytes ∧
    (countersAt (try_tcp_recvmsg st pid_tgid ret) id).tx_packets =
      (countersAt st id).tx_packets := by
  refine ⟨?_, ?_, ?_, ?_⟩ <;>
  · cases ret with
    | none => rfl
    | some r =>
      by_cases hr : r ≤ 0 ∨ r > 1048576
      · simp only [try_tcp_sendmsg, try_tcp_recvmsg, if_pos hr]
      · by_cases hw : whitelistValue st (tgidOf pid_tgid) = 0
        · simp only [try_tcp_sendmsg, try_tcp_recvmsg, if_neg hr, if_pos hw]
        · by_cases hid : id = tgidOf pid_tgid
          · subst hid
            simp [try_tcp_sendmsg, try_tcp_recvmsg, if_neg hr, if_neg hw,
              countersAt, mapInsert]
          · simp [try_tcp_sendmsg, try_tcp_recvmsg, if_neg hr, if_neg hw,
              countersAt, mapInsert, hid]

/-!
Part 2 models the process-identity resolver of
`src/src/services/process_checker.rs`.  A live process is observed as its
pid, optional parent pid, space-joined command line, and process name.  The
regex engine is not embedded: a successfully compiled `Regex::new` outcome
is abstracted as the matcher `String → Bool` it denotes, and a compile
failure as `none`, which is exactly the information `get_process_pid`
branches on.
-/

/-- A live process as the resolver observes it. -/
structure ProcInfo where
  pid : Int
  ppid : Option Int
  cmd : String
  name : String
deriving DecidableEq, Repr

/-- Rust `Iterator::min` over pids. -/
def listMin : List Int → Option Int
  | [] => none
  | x :: xs => some (xs.foldl min x)

/-- Rust `str::contains`: some position of `s` starts the pattern. -/
def strContains (s pat : String) : Bool :=
  (List.range (s.data.length + 1)).any fun i => pat.data.isPrefixOf (s.data.drop i)

/-- Candidates of the regex branch of `get_process_pid`: processes whose
joined command line matches the compiled regex, kept as
`(pid, parent, cmd)` triples in scan order (the cmd component is only
logged by the source). -/
def regexMatching (isMatch : String → Bool) (procs : List ProcInfo) :
    List (Int × Option Int × String) :=
  (procs.filter fun p => isMatch p.cmd).map fun p => (p.pid, p.ppid, p.cmd)

/-- Multi-candidate selection of the regex branch
(`src/src/services/process_checker.rs`, `get_process_pid`): empty list
resolves to none, a single candidate is returned directly; otherwise
strategy 1 prefers a candidate with parent pid 1, strategy 2 prefers one
whose parent lies outside the matched set, and strategy 3 falls back to the
minimum pid (`min().unwrap()`, total here via `getD` on a list that is
never empty in that branch). -/
def selectRegexMain (matching : List (Int × Option Int × String)) : Option Int :=
  match matching with
  | [] => none
  | [c] => some c.1
  | cs =>
    match cs.find? (fun c => c.2.1 == some 1) with
    | some c => some c.1
    | none =>
      let matching_pids := cs.map fun c => c.1
      match cs.find? (fun c => match c.2.1 with
          | some pp => !(matching_pids.contains pp)
          | none => false) with
      | some c => some c.1
      | none => (listMin matching_pids).getD 0

/-- Substring-fallback candidates: processes whose command line or name
contains the pattern, as `(pid, parent)` pairs in scan order. -/
def stringMatching (pattern : String) (procs : List ProcInfo) :
    List (Int × Option Int) :=
  (procs.filter fun p =>
    strContains p.cmd pattern || strContains p.name pattern).map
    fun p => (p.pid, p.ppid)

/-- `find_main_process_by_string` from
`src/src/services/process_checker.rs`: empty gives none, a single candidate
is returned; with several, a candidate with parent pid 1 is preferred and
otherwise the minimum pid is returned (`min()`). -/
def find_main_process_by_string (pattern : String) (procs : List ProcInfo) :
    Option Int :=
  match stringMatching pattern procs with
  | [] => none
  | [c] => some c.1
  | cs =>
    match cs.find? (fun c => c.2 == some 1) with
    | some c => some c.1
    | none => listMin (cs.map fun c => c.1)

/-- `get_process_pid`: the match rule is compiled as a regex
(`compiled = some isMatch`) and applied to each command line; on compile
failure (`compiled = none`) it falls back to `find_main_process_by_string`. -/
def get_process_pid (compiled : Option (String → Bool)) (pattern : String)
    (procs : List ProcInfo) : Option Int :=
  match compiled with
  | none => find_main_process_by_string pattern procs
  | some isMatch => selectRegexMain (regexMatching isMatch procs)

/-- The substring fallback as the specification words it (claim C5): the
SAME ordered tie-break policy as the regex path, including step 2 (a
candidate whose parent lies outside the matched set) before the minimum-pid
fallback.  Kept separate to compare against the source's
`find_main_process_by_string`. -/
def find_main_process_by_string_spec (pattern : String) (procs : List ProcInfo) :
    Option Int :=
  match stringMatching pattern procs with
  | [] => none
  | [c] => some c.1
  | cs =>
    match cs.find? (fun c => c.2 == some 1) with
    | some c => some c.1
    | none =>
      let pids := cs.map fun c => c.1
      match cs.find? (fun c => match c.2 with
          | some pp => !(pids.contains pp)
          | none => false) with
      | some c => some c.1
      | none => listMin pids

theorem foldl_min_le_init (xs : List Int) : ∀ a : Int, xs.foldl min a ≤ a := by
  induction xs with
  | nil => intro a; exact le_refl a
  | cons x xs ih => intro a; exact le_trans (ih (min a x)) (min_le_left a x)

theorem foldl_min_le_mem (xs : List Int) :
    ∀ (a y : Int), y ∈ xs → xs.foldl min a ≤ y := by
  induction xs with
  | nil => intro a y hy; cases hy
  | cons x xs ih =>
    intro a y hy
    cases hy with
    | head => exact le_trans (foldl_min_le_init xs (min a x)) (min_le_right a x)
    | tail _ h => exact ih (min a x) y h

theorem foldl_min_mem (xs : List Int) :
    ∀ a : Int, xs.foldl min a = a ∨ xs.foldl min a ∈ xs := by
  induction xs with
  | nil => intro a; exact Or.inl rfl
  | cons x xs ih =>
    intro a
    rw [List.foldl_cons]
    rcases ih (min a x) with h | h
    · rcases min_cases a x with ⟨hm, _⟩ | ⟨hm, _⟩
      · rw [h, hm]; exact Or.inl rfl
      · rw [h, hm]; exact Or.inr (List.mem_cons_self x xs)
    · exact Or.inr (List.mem_cons_of_mem x h)

/-- `listMin` returns a member that bounds every member from below. -/
theorem listMin_spec {xs : List Int} {m : Int} (h : listMin xs = some m) :
    m ∈ xs ∧ ∀ y ∈ xs, m ≤ y := by
  cases xs with
  | nil => cases h
  | cons x xs =>
    simp only [listMin, Option.some.injEq] at h
    subst h
    refine ⟨?_, ?_⟩
    · rcases foldl_min_mem xs x with h | h
      · rw [h]; exact List.mem_cons_self x xs
      · exact List.mem_cons_of_mem x h
    · intro y hy
      cases hy with
      | head => exact foldl_min_le_init xs x
      | tail _ hmem => exact foldl_min_le_mem xs x y hmem

/-- With at least two candidates, none having parent pid 1 and every present
parent inside the matched set, the regex-branch selection returns the
minimum pid. -/
theorem selectRegexMain_min {cs : List (Int × Option Int × String)}
    (hlen : 1 < cs.length)
    (h1 : ∀ c ∈ cs, c.2.1 ≠ some 1)
    (h2 : ∀ c ∈ cs, ∀ pp, c.2.1 = some pp → pp ∈ cs.map (fun x => x.1)) :
    ∃ mn, selectRegexMain cs = some mn ∧ mn ∈ cs.map (fun x => x.1) ∧
      ∀ q ∈ cs.map (fun x => x.1), mn ≤ q := by
  cases cs with
  | nil => simp at hlen
  | cons a l =>
    cases l with
    | nil => simp at hlen
    | cons b rest =>
      have hf1 : (a :: b :: rest).find? (fun c => c.2.1 == some 1) = none := by
        rw [List.find?_eq_none]
        intro x hx
        simpa using h1 x hx
      have hf2 : (a :: b :: rest).find? (fun c =>
          match c.2.1 with
          | some pp => !(((a :: b :: rest).map fun x => x.1).contains pp)
          | none => false) = none := by
        rw [List.find?_eq_none]
        intro x hx
        cases hpp : x.2.1 with
        | none => simp
        | some pp =>
          have hmem := h2 x hx pp hpp
          have hc : (((a :: b :: rest).map fun x => x.1).contains pp) = true :=
            List.elem_eq_true_of_mem hmem
          simp only [hpp]
          rw [hc]
          decide
      have hmin : listMin ((a :: b :: rest).map fun x => x.1) =
          some ((rest.map fun x => x.1).foldl min (min a.1 b.1)) := by
        simp [listMin]
      obtain ⟨hm1, hm2⟩ := listMin_spec hmin
      refine ⟨_, ?_, hm1, hm2⟩
      simp only [selectRegexMain, hf1, hf2, hmin, Option.getD_some]

/-- C4: the regex branch of `get_process_pid` returns none on zero matches,
the unique pid on exactly one match, and — when several match, none has
parent pid 1, and every present parent is itself a matching pid — the
numerically smallest matching pid. -/
theorem c4_regex_resolution (isMatch : String → Bool) (pattern : String)
    (procs : List ProcInfo) :
    (regexMatching isMatch procs = [] →
      get_process_pid (some isMatch) pattern procs = none) ∧
    (∀ c, regexMatching isMatch procs = [c] →
      get_process_pid (some isMatch) pattern procs = some c.1) ∧
    (1 < (regexMatching isMatch procs).length →
      (∀ c ∈ regexMatching isMatch procs, c.2.1 ≠ some 1) →
      (∀ c ∈ regexMatching isMatch procs, ∀ pp, c.2.1 = some pp →
        pp ∈ (regexMatching isMatch procs).map fun x => x.1) →
      ∃ mn, get_process_pid (some isMatch) pattern procs = some mn ∧
        mn ∈ ((regexMatching isMatch procs).map fun x => x.1) ∧
        ∀ q ∈ ((regexMatching isMatch procs).map fun x => x.1), mn ≤ q) := by
  refine ⟨?_, ?_, ?_⟩
  · intro h
    simp [get_process_pid, h, selectRegexMain]
  · intro c h
    simp [get_process_pid, h, selectRegexMain]
  · intro hlen h1 h2
    simpa [get_process_pid] using selectRegexMain_min hlen h1 h2

/-- Witness for C4: the three cases at concrete process lists (matcher is
equality with the literal command line "a"). -/
theorem c4_regex_resolution_witness :
    get_process_pid (some fun s => s == "a") "a" [] = none ∧
    get_process_pid (some fun s => s == "a") "a"
      [⟨10, some 2, "a", "x"⟩] = some 10 ∧
    (∃ mn, get_process_pid (some fun s => s == "a") "a"
        [⟨7, some 4, "a", "x"⟩, ⟨4, some 7, "a", "y"⟩] = some mn ∧
      mn ∈ ((regexMatching (fun s => s == "a")
        [⟨7, some 4, "a", "x"⟩, ⟨4, some 7, "a", "y"⟩]).map fun x => x.1) ∧
      ∀ q ∈ ((regexMatching (fun s => s == "a")
        [⟨7, some 4, "a", "x"⟩, ⟨4, some 7, "a", "y"⟩]).map fun x => x.1),
        mn ≤ q) :=
  ⟨(c4_regex_resolution (fun s => s == "a") "a" []).1 rfl,
   (c4_regex_resolution (fun s => s == "a") "a"
     [⟨10, some 2, "a", "x"⟩]).2.1 (10, some 2, "a") rfl,
   (c4_regex_resolution (fun s => s == "a") "a"
     [⟨7, some 4, "a", "x"⟩, ⟨4, some 7, "a", "y"⟩]).2.2
     (by decide) (by decide) (by decide)⟩

/-- Concrete scenario for C5: two processes match the substring rule "java";
the lower pid's parent is the other match, the higher pid's parent (2) lies
outside the matched set, and neither parent is pid 1. -/
def procsC5 : List ProcInfo :=
  [⟨3, some 5, "java -jar worker.jar", "java"⟩,
   ⟨5, some 2, "java -jar main.jar", "java"⟩]

/-- Counterexample to C5: on the scenario `procsC5` the source's substring
fallback returns the minimum pid 3, whereas the policy the claim states
(step 2 — parent outside the matched set — before the minimum-pid fallback)
returns 5. -/
theorem c5_counterexample :
    get_process_pid none "java" procsC5 = some 3 ∧
    find_main_process_by_string_spec "java" procsC5 = some 5 ∧
    (some 3 : Option Int) ≠ some 5 := by
  refine ⟨by decide, by decide, by decide⟩

/-- C5 amended: when the rule fails to compile as a regex, resolution falls
back to substring matching against both command line and process name, but
with several candidates the fallback only tries tie-break step 1 (parent
pid 1) and then returns the minimum matching pid — step 2 (parent outside
the matched set) is not applied on the fallback path. -/
theorem c5_substring_fallback (pattern : String) (procs : List ProcInfo) :
    (get_process_pid none pattern procs =
      find_main_process_by_string pattern procs) ∧
    (1 < (stringMatching pattern procs).length →
      ∀ c, (stringMatching pattern procs).find? (fun x => x.2 == some 1) =
          some c →
        find_main_process_by_string pattern procs = some c.1) ∧
    (1 < (stringMatching pattern procs).length →
      (∀ c ∈ stringMatching pattern procs, c.2 ≠ some 1) →
      ∃ mn, find_main_process_by_string pattern procs = some mn ∧
        mn ∈ ((stringMatching pattern procs).map fun c => c.1) ∧
        ∀ q ∈ ((stringMatching pattern procs).map fun c => c.1), mn ≤ q) := by
  refine ⟨rfl, ?_, ?_⟩
  · intro hlen c hc
    cases hsm : stringMatching pattern procs with
    | nil => rw [hsm] at hlen; simp at hlen
    | cons a l =>
      cases l with
      | nil => rw [hsm] at hlen; simp at hlen
      | cons b rest =>
        rw [hsm] at hc
        simp only [find_main_process_by_string, hsm, hc]
  · intro hlen h1
    cases hsm : stringMatching pattern procs with
    | nil => rw [hsm] at hlen; simp at hlen
    | cons a l =>
      cases l with
      | nil => rw [hsm] at hlen; simp at hlen
      | cons b rest =>
        rw [hsm] at h1
        have hf : (a :: b :: rest).find? (fun x => x.2 == some 1) = none := by
          rw [List.find?_eq_none]
          intro x hx
          simpa using h1 x hx
        have hmin : listMin ((a :: b :: rest).map fun c => c.1) =
            some ((rest.map fun c => c.1).foldl min (min a.1 b.1)) := by
          simp [listMin]
        obtain ⟨hm1, hm2⟩ := listMin_spec hmin
        refine ⟨_, ?_, hm1, hm2⟩
        simp only [find_main_process_by_string, hsm, hf, hmin]

/-- Witness for C5's amended statement at concrete inputs: the fallback
dispatch, a parent-pid-1 candidate winning, and the minimum-pid fallback. -/
theorem c5_substring_fallback_witness :
    (get_process_pid none "x" [⟨4, some 9, "x", "n"⟩] =
      find_main_process_by_string "x" [⟨4, some 9, "x", "n"⟩]) ∧
    find_main_process_by_string "x"
      [⟨4, some 9, "x", "n"⟩, ⟨8, some 1, "x", "m"⟩] = some 8 ∧
    (∃ mn, find_main_process_by_string "x"
        [⟨4, some 9, "x", "n"⟩, ⟨8, some 2, "x", "m"⟩] = some mn ∧
      mn ∈ ((stringMatching "x"
        [⟨4, some 9, "x", "n"⟩, ⟨8, some 2, "x", "m"⟩]).map fun c => c.1) ∧
      ∀ q ∈ ((stringMatching "x"
        [⟨4, some 9, "x", "n"⟩, ⟨8, some 2, "x", "m"⟩]).map fun c => c.1),
        mn ≤ q) :=
  ⟨(c5_substring_fallback "x" [⟨4, some 9, "x", "n"⟩]).1,
   (c5_substring_fallback "x"
     [⟨4, some 9, "x", "n"⟩, ⟨8, some 1, "x", "m"⟩]).2.1 (by decide)
     (8, some 1) (by decide),
   (c5_substring_fallback "x"
     [⟨4, some 9, "x", "n"⟩, ⟨8, some 2, "x", "m"⟩]).2.2 (by decide)
     (by decide)⟩

/-!
Part 3 models the userspace registry and the metrics endpoint:
`src/src/api/register.rs` (`register_process`, `unregister_process`),
`src/src/api/metrics.rs` (`get_metrics`) and the global Prometheus registry
of `src/src/metrics/mod.rs`.  `AppState.processes` is an association list
keyed by unique target name; the eBPF whitelist is the userspace view of
the kernel map (`add_pid_to_whitelist` inserts value 1, removal deletes the
key).  Process-table scans and OS/kernel sampling are I/O and enter the
operations as parameters.
-/

/-- `ProcessStats` from `src/src/models/stats.rs`; the two f32 percentage
fields are modelled as rationals, the u64/usize fields as naturals. -/
structure ProcessStats where
  cpu_usage : ℚ
  memory_bytes : Nat
  memory_percent : ℚ
  virtual_memory_bytes : Nat
  disk_read_bytes : Nat
  disk_written_bytes : Nat
  thread_count : Nat
  network_tx_bytes : Nat
  network_rx_bytes : Nat
  network_tx_packets : Nat
  network_rx_packets : Nat
deriving DecidableEq, Repr

/-- `ProcessStats::empty()` — the all-zero default. -/
def ProcessStats.empty : ProcessStats := ⟨0, 0, 0, 0, 0, 0, 0, 0, 0, 0, 0⟩

/-- `ProcessConfig` from `src/src/models/process.rs`. -/
structure ProcessConfig where
  name : String
  cmdline : String
  labels : List (String × String)
deriving DecidableEq, Repr

/-- `ProcessStatus` from `src/src/models/process.rs`. -/
structure ProcessStatus where
  config : ProcessConfig
  registered_at : Nat
  last_check : Nat
  is_running : Bool
  pid : Option Int
  stats : ProcessStats
deriving DecidableEq, Repr

/-- `pid as u32` (i32 to u32 cast). -/
def i32ToU32 (p : Int) : Nat := (p % 2 ^ 32).toNat

/-- `HashMap::get` on the name-keyed registry. -/
def lookupName (m : List (String × ProcessStatus)) (k : String) :
    Option ProcessStatus :=
  (m.find? fun e => e.1 == k).map fun e => e.2

/-- `HashMap::insert` on the name-keyed registry (replace or append). -/
def insertName (m : List (String × ProcessStatus)) (k : String)
    (v : ProcessStatus) : List (String × ProcessStatus) :=
  if m.any fun e => e.1 == k then
    m.map fun e => if e.1 == k then (k, v) else e
  else m ++ [(k, v)]

/-- `HashMap::remove` on the name-keyed registry. -/
def removeName (m : List (String × ProcessStatus)) (k : String) :
    List (String × ProcessStatus) :=
  m.filter fun e => !(e.1 == k)

/-- `add_pid_to_whitelist`: insert key with value 1 into the kernel map. -/
def wlInsert (w : List (Nat × Nat)) (k v : Nat) : List (Nat × Nat) :=
  if w.any fun e => e.1 == k then
    w.map fun e => if e.1 == k then (k, v) else e
  else w ++ [(k, v)]

/-- `remove_pid_from_whitelist`: delete the key from the kernel map. -/
def wlRemove (w : List (Nat × Nat)) (k : Nat) : List (Nat × Nat) :=
  w.filter fun e => !(e.1 == k)

/-- Userspace state guarded by the `AppState` mutex: the target registry and
the whitelist the loader mutates on its behalf. -/
structure AppSt where
  processes : List (String × ProcessStatus)
  whitelist : List (Nat × Nat)
deriving DecidableEq, Repr

/-- Body of a registration request (`RegisterRequest`). -/
structure RegisterRequest where
  name : String
  cmdline : String
  labels : List (String × String)
deriving DecidableEq, Repr

/-- Outcome of `register_process`: HTTP 409 with the claiming name, or
HTTP 200 with the resolved pid and running state. -/
inductive RegisterOutcome where
  | conflict (existing_name : String) (pid : Int)
  | ok (pid : Option Int) (is_running : Bool)
deriving DecidableEq, Repr

/-- The conflict scan of `register_process`: some other registered name
already holds the resolved pid. -/
def conflictCheck (processes : List (String × ProcessStatus))
    (reqName : String) (pid : Option Int) : Option (String × Int) :=
  match pid with
  | none => none
  | some current_pid =>
    (processes.find? fun e =>
      e.2.pid == some current_pid && e.1 != reqName).map
      fun e => (e.1, current_pid)

/-- `register_process` from `src/src/api/register.rs`.  `is_running`, `pid`
(the process-table resolution) and `collected` (the stats sample for a live
pid) are the operation's I/O inputs; `now` is the request timestamp.
Mirrors the source order: conflict check with early return and no mutation,
build the status, preserve `registered_at` when the name already exists,
insert into the registry, then add the pid to the eBPF whitelist. -/
def register_process (st : AppSt) (req : RegisterRequest) (now : Nat)
    (is_running : Bool) (pid : Option Int) (collected : ProcessStats) :
    AppSt × RegisterOutcome :=
  match conflictCheck st.processes req.name pid with
  | some e => (st, .conflict e.1 e.2)
  | none =>
    let stats := match pid with
      | some _ => collected
      | none => ProcessStats.empty
    let status : ProcessStatus :=
      { config := ⟨req.name, req.cmdline, req.labels⟩
        registered_at := now
        last_check := now
        is_running := is_running
        pid := pid
        stats := stats }
    let final_status := match lookupName st.processes req.name with
      | some existing => { status with registered_at := existing.registered_at }
      | none => status
    let processes := insertName st.processes req.name final_status
    let whitelist := match pid with
      | some p => wlInsert st.whitelist (i32ToU32 p) 1
      | none => st.whitelist
    (⟨processes, whitelist⟩, .ok pid is_running)

/-- Outcome of `unregister_process`: HTTP 200 or HTTP 404. -/
inductive UnregisterOutcome where
  | ok
  | notFound
deriving DecidableEq, Repr

/-- `unregister_process` from `src/src/api/register.rs`: remove by name; if
the entry existed, also remove its held pid from the eBPF whitelist; an
unknown name yields NotFound with no mutation at all. -/
def unregister_process (st : AppSt) (name : String) :
    AppSt × UnregisterOutcome :=
  match lookupName st.processes name with
  | some status =>
    let processes := removeName st.processes name
    let whitelist := match status.pid with
      | some p => wlRemove st.whitelist (i32ToU32 p)
      | none => st.whitelist
    (⟨processes, whitelist⟩, .ok)
  | none => (st, .notFound)

/-- The two families of the global Prometheus registry
(`src/src/metrics/mod.rs`) that the claims reference: `process_up`, keyed
`(name, cmdline, hostname)`, and `process_pid_info`, keyed
`(name, pid, hostname)` (the pid label is kept as the integer it prints).
A series stays in the registry until an explicit `remove_label_values`. -/
structure MetricsState where
  process_up : List ((String × String × String) × Int)
  process_pid_info : List ((String × Int × String) × Int)
deriving DecidableEq, Repr

/-- `GaugeVec::with_label_values(..).set(v)`: update or create the series. -/
def gaugeSet {α : Type} [BEq α] (g : List (α × Int)) (l : α) (v : Int) :
    List (α × Int) :=
  if g.any fun e => e.1 == l then
    g.map fun e => if e.1 == l then (l, v) else e
  else g ++ [(l, v)]

/-- `GaugeVec::remove_label_values`: delete the series. -/
def gaugeRemove {α : Type} [BEq α] (g : List (α × Int)) (l : α) :
    List (α × Int) :=
  g.filter fun e => !(e.1 == l)

/-- One iteration of the first loop of `get_metrics`
(`src/src/api/metrics.rs`): re-resolve the target
(`check_process_running` / `get_process_pid`, both entering as `resolve`),
update the whitelist on a pid change (remove the old pid, add the new one),
sample fresh stats for a live pid, and write back `is_running`, `pid`,
`last_check` and — only when a fresh sample was obtained — `stats`.  The
accumulator also records the `(name, old_pid, new_pid)` change entry. -/
def metricsUpdateStep (resolve : String → Option Int)
    (sample : Int → Option ProcessStats) (now : Nat)
    (acc : AppSt × List (String × Option Int × Option Int))
    (entry : String × Option Int × String) :
    AppSt × List (String × Option Int × Option Int) :=
  let st := acc.1
  let name := entry.1
  let old_pid := entry.2.1
  let cmdline := entry.2.2
  let is_running := (resolve cmdline).isSome
  let new_pid := resolve cmdline
  let whitelist :=
    if old_pid ≠ new_pid then
      let w1 := match old_pid with
        | some o => wlRemove st.whitelist (i32ToU32 o)
        | none => st.whitelist
      match new_pid with
      | some n => wlInsert w1 (i32ToU32 n) 1
      | none => w1
    else st.whitelist
  let stats := match new_pid with
    | some p => sample p
    | none => none
  let processes := match lookupName st.processes name with
    | some status =>
      insertName st.processes name
        { status with
            is_running := is_running
            pid := new_pid
            last_check := now
            stats := match stats with
              | some s => s
              | none => status.stats }
    | none => st.processes
  (⟨processes, whitelist⟩, acc.2 ++ [(name, old_pid, new_pid)])

/-- One iteration of the render-update loop of `get_metrics`: retire the
old pid-info series when the pid changed, set the current pid-info series
to 1, and set the up gauge from `is_running`.  (The resource and timestamp
families are outside the modelled registry.) -/
def metricsRenderStep (host : String)
    (changes : List (String × Option Int × Option Int))
    (m : MetricsState) (entry : String × ProcessStatus) : MetricsState :=
  let status := entry.2
  let name := status.config.name
  let cmdline := status.config.cmdline
  let m1 := match changes.find? fun c => c.1 == name with
    | some c =>
      let m0 :=
        if c.2.1 ≠ c.2.2 then
          match c.2.1 with
          | some o =>
            { m with process_pid_info :=
                gaugeRemove m.process_pid_info (name, o, host) }
          | none => m
        else m
      match c.2.2 with
      | some n =>
        { m0 with process_pid_info :=
            gaugeSet m0.process_pid_info (name, n, host) 1 }
      | none => m0
    | none => m
  let upv : Int := if status.is_running then 1 else 0
  { m1 with process_up := gaugeSet m1.process_up (name, cmdline, host) upv }

/-- `get_metrics` from `src/src/api/metrics.rs`: snapshot the registered
targets, run the update loop, then run the render-update loop against the
global metrics registry.  The response body is the render of the resulting
registry, which emits every series the registry holds. -/
def get_metrics (resolve : String → Option Int)
    (sample : Int → Option ProcessStats) (host : String) (now : Nat)
    (st : AppSt) (m : MetricsState) : AppSt × MetricsState :=
  let pids_to_update :=
    st.processes.map fun e => (e.1, e.2.pid, e.2.config.cmdline)
  let step1 :=
    pids_to_update.foldl (metricsUpdateStep resolve sample now) (st, [])
  (step1.1, step1.1.processes.foldl (metricsRenderStep host step1.2) m)

/-- One line of the rendered exposition text. -/
inductive Series where
  | up (name cmdline host : String) (value : Int)
  | pidInfo (name : String) (pid : Int) (host : String) (value : Int)
deriving DecidableEq, Repr

/-- `MetricsRegistry::render`: the encoder emits every series currently in
the registry, one line per series. -/
def renderSeries (m : MetricsState) : List Series :=
  (m.process_up.map fun e => Series.up e.1.1 e.1.2.1 e.1.2.2 e.2) ++
  (m.process_pid_info.map fun e => Series.pidInfo e.1.1 e.1.2.1 e.1.2.2 e.2)

/-- The rendered output contains a `process_up` series for the target. -/
def hasUpSeries (m : MetricsState) (name : String) : Bool :=
  (renderSeries m).any fun s => match s with
    | .up n _ _ _ => n == name
    | _ => false

/-- The rendered output contains a `process_pid_info` series for the pid. -/
def hasPidInfoSeries (m : MetricsState) (pid : Int) : Bool :=
  (renderSeries m).any fun s => match s with
    | .pidInfo _ p _ _ => p == pid
    | _ => false

/-- Resolution for the C6 scenario: "svc-bin" always resolves to pid 4242. -/
def c6Resolve : String → Option Int :=
  fun c => if c == "svc-bin" then some 4242 else none

/-- C6 scenario start: "svc" registered with pid 4242, whitelisted, empty
metrics registry. -/
def c6St0 : AppSt :=
  ⟨[("svc", ⟨⟨"svc", "svc-bin", []⟩, 100, 100, true, some 4242,
      ProcessStats.empty⟩)], [(4242, 1)]⟩

/-- First scrape of the C6 scenario: populates the up and pid-info series. -/
def c6Scrape1 : AppSt × MetricsState :=
  get_metrics c6Resolve (fun _ => none) "h" 101 c6St0 ⟨[], []⟩

/-- Unregistration of "svc" after the first scrape. -/
def c6Unreg : AppSt × UnregisterOutcome :=
  unregister_process c6Scrape1.1 "svc"

/-- The scrape following the unregistration, rendering against the metrics
registry the first scrape left behind. -/
def c6Scrape2 : AppSt × MetricsState :=
  get_metrics c6Resolve (fun _ => none) "h" 102 c6Unreg.1 c6Scrape1.2

/-- C6 evaluated on the scenario: the unregistration succeeds and empties
the registry, yet the next scrape's rendered output still contains the
`process_up` series for "svc" and the `process_pid_info` series for 4242 —
`unregister_process` never calls `remove_label_values` on the global
registry (`reset_process_metrics` exists in `src/src/metrics/mod.rs` but
has no caller), so the claimed absence fails. -/
theorem c6_stale_series_after_unregister :
    c6Unreg.2 = UnregisterOutcome.ok ∧
    c6Unreg.1.processes = [] ∧
    hasUpSeries c6Scrape2.2 "svc" = true ∧
    hasPidInfoSeries c6Scrape2.2 4242 = true := by decide

/-- C7: a registration whose resolved pid is already held by a different
registered name returns a conflict and mutates nothing: the whole state
(registry and whitelist) is returned unchanged. -/
theorem c7_conflict_no_mutation (st : AppSt) (req : RegisterRequest)
    (now : Nat) (ir : Bool) (q : Int) (collected : ProcessStats)
    (h : ∃ e ∈ st.processes, e.2.pid = some q ∧ e.1 ≠ req.name) :
    (register_process st req now ir (some q) collected).1 = st ∧
    ∃ en, (register_process st req now ir (some q) collected).2 =
      RegisterOutcome.conflict en q := by
  obtain ⟨e, he, hpid, hne⟩ := h
  have hfind : (st.processes.find? fun x =>
      x.2.pid == some q && x.1 != req.name).isSome := by
    rw [List.find?_isSome]
    exact ⟨e, he, by simp [hpid, hne]⟩
  obtain ⟨e0, he0⟩ := Option.isSome_iff_exists.mp hfind
  refine ⟨?_, e0.1, ?_⟩ <;>
    simp only [register_process, conflictCheck, he0, Option.map_some']

/-- C7 scenario: "a" already holds pid 7 when "b" resolves to the same pid. -/
def c7St : AppSt :=
  ⟨[("a", ⟨⟨"a", "acmd", []⟩, 50, 50, true, some 7, ProcessStats.empty⟩)],
   [(7, 1)]⟩

/-- Witness for C7 on the concrete conflicting registration. -/
theorem c7_conflict_no_mutation_witness :
    (∃ e ∈ c7St.processes, e.2.pid = some 7 ∧ e.1 ≠ "b") ∧
    ((register_process c7St ⟨"b", "bcmd", []⟩ 60 true (some 7)
        ProcessStats.empty).1 = c7St ∧
     ∃ en, (register_process c7St ⟨"b", "bcmd", []⟩ 60 true (some 7)
        ProcessStats.empty).2 = RegisterOutcome.conflict en 7) :=
  ⟨by decide,
   c7_conflict_no_mutation c7St ⟨"b", "bcmd", []⟩ 60 true 7
     ProcessStats.empty (by decide)⟩

/-- Inserting under a key makes lookup return exactly the inserted value. -/
theorem lookupName_insert (m : List (String × ProcessStatus)) (k : String)
    (v : ProcessStatus) : lookupName (insertName m k v) k = some v := by
  unfold insertName
  by_cases h : (m.any fun e => e.1 == k) = true
  · rw [if_pos h]
    induction m with
    | nil => simp at h
    | cons e rest ih =>
      by_cases he : (e.1 == k) = true
      · simp [lookupName, List.find?, he]
      · have hr : (rest.any fun e => e.1 == k) = true := by
          simp only [List.any_cons, he, Bool.false_or] at h
          exact h
        simpa [lookupName, List.find?, he] using ih hr
  · rw [if_neg h]
    induction m with
    | nil => simp [lookupName, List.find?]
    | cons e rest ih =>
      have h2 : ¬((e.1 == k) = true ∨ (rest.any fun x => x.1 == k) = true) := by
        simpa [List.any_cons] using h
      have he : (e.1 == k) = false := by
        cases hbe : (e.1 == k) with
        | false => rfl
        | true => exact absurd (Or.inl hbe) h2
      have hr : ¬(rest.any fun x => x.1 == k) = true := fun hx => h2 (Or.inr hx)
      simpa [lookupName, List.find?, he] using ih hr

/-- C8: re-registering an existing name keeps the original `registered_at`
while the stored config takes the new request's match rule and labels (and
the other fields are refreshed from this request). -/
theorem c8_reregistration (st : AppSt) (req : RegisterRequest) (now : Nat)
    (ir : Bool) (pid : Option Int) (collected : ProcessStats)
    (existing : ProcessStatus)
    (hc : conflictCheck st.processes req.name pid = none)
    (he : lookupName st.processes req.name = some existing) :
    lookupName (register_process st req now ir pid collected).1.processes
        req.name =
      some { config := ⟨req.name, req.cmdline, req.labels⟩
             registered_at := existing.registered_at
             last_check := now
             is_running := ir
             pid := pid
             stats := match pid with
               | some _ => collected
               | none => ProcessStats.empty } := by
  cases pid with
  | none =>
    simp only [register_process, hc, he]
    exact lookupName_insert _ _ _
  | some p =>
    simp only [register_process, hc, he]
    exact lookupName_insert _ _ _

/-- C8 scenario: the original registration of name "a" at time 50. -/
def c8Old : ProcessStatus :=
  ⟨⟨"a", "oldcmd", []⟩, 50, 50, true, some 7, ProcessStats.empty⟩

/-- C8 scenario state holding only `c8Old` under name "a". -/
def c8St : AppSt := ⟨[("a", c8Old)], [(7, 1)]⟩

/-- Witness for C8: re-registering "a" at time 60 with a new rule and labels
keeps `registered_at = 50` and stores the new cmdline and labels. -/
theorem c8_reregistration_witness :
    conflictCheck c8St.processes "a" (some 7) = none ∧
    lookupName c8St.processes "a" = some c8Old ∧
    lookupName (register_process c8St ⟨"a", "newcmd", [("k", "v")]⟩ 60 true
        (some 7) ProcessStats.empty).1.processes "a" =
      some { config := ⟨"a", "newcmd", [("k", "v")]⟩
             registered_at := c8Old.registered_at
             last_check := 60
             is_running := true
             pid := some 7
             stats := ProcessStats.empty } :=
  ⟨by decide, by decide,
   c8_reregistration c8St ⟨"a", "newcmd", [("k", "v")]⟩ 60 true (some 7)
     ProcessStats.empty c8Old (by decide) (by decide)⟩

/-- C9: unregistering a name with no registry entry returns the distinct
NotFound outcome and leaves the whole state — registry and whitelist —
unchanged. -/
theorem c9_unregister_unknown (st : AppSt) (name : String)
    (h : lookupName st.processes name = none) :
    unregister_process st name = (st, UnregisterOutcome.notFound) := by
  simp only [unregister_process, h]

/-- Witness for C9: unknown name on a non-empty state. -/
theorem c9_unregister_unknown_witness :
    lookupName c7St.processes "zzz" = none ∧
    unregister_process c7St "zzz" = (c7St, UnregisterOutcome.notFound) :=
  ⟨by decide, c9_unregister_unknown c7St "zzz" (by decide)⟩

end ProcExporter
